import Mathlib

/-!
Shallow embedding of the campus placement-portal backend
(`main.py` together with the record schemas of `schemas.py`).

Conventions of the embedding:
* MongoDB documents become Lean structures; `ObjectId` values are
  natural numbers, obtained from a 24-character hexadecimal string by
  `parseObjectId` (PyMongo accepts upper- and lower-case hex digits).
* `datetime` values are natural-number timestamps.
* Python `Optional` fields are `Option`; Python truthiness of an
  optional string (`None` and `""` are falsy) is `truthyOptStr`.
* The applications collection is a list of `AppDoc` in insertion
  order; `find_one` is `List.find?`, `update_one` on an `_id` filter
  rewrites the first matching document (`updateFirst`).
* An `HTTPException` is an `HTTPError` carrying status code and detail;
  a handler returns `Except HTTPError α` together with the collection
  state after the call.
-/

namespace Portal

/-- `User` record of `schemas.py` (collection "user"). -/
structure User where
  name : String
  email : String
  role : String
  department : Option String
  skills : List String
  resume_url : Option String
  is_active : Bool
deriving DecidableEq

/-- `Opening` record of `schemas.py` (collection "opening"). -/
structure Opening where
  title : String
  company : String
  department : Option String
  description : Option String
  skills_required : List String
  stipend_min : Option Nat
  stipend_max : Option Nat
  placement_conversion_prob : Option Nat
  deadline : Option Nat
  created_by : Option String
deriving DecidableEq

/-- The statuses admitted by the `Literal` type of `Application.status`
in `schemas.py`; request bodies are validated against this set. -/
def allowedStatuses : List String :=
  ["applied", "under_review", "approved", "rejected", "interview_scheduled",
   "offered", "accepted", "rejected_offer", "completed"]

/-- `Application` record of `schemas.py`: the request body accepted by
`POST /applications`.  Every field of the pydantic model is settable by
the client; `status` defaults to "applied" and the optional fields to
`None` only when the body omits them. -/
structure ApplicationIn where
  student_id : String
  opening_id : String
  status : String
  mentor_id : Option String
  interview_datetime : Option Nat
  interview_location : Option String
  feedback : Option String
  certificate_url : Option String
deriving DecidableEq

/-- Schema-level validation of an `ApplicationIn` body: the only
constraint beyond the field types is the `Literal` set for `status`. -/
def validApplicationIn (a : ApplicationIn) : Bool :=
  allowedStatuses.contains a.status

/-- The request body whose `status` and optional fields are all left to
the pydantic defaults of `schemas.py`. -/
def defaultApplication (student_id opening_id : String) : ApplicationIn :=
  { student_id := student_id
    opening_id := opening_id
    status := "applied"
    mentor_id := none
    interview_datetime := none
    interview_location := none
    feedback := none
    certificate_url := none }

/-- A stored document of the applications collection: the fields of
`Application` plus the generated `_id` and the `updated_at` stamp that
`update_application` writes (absent until the first update). -/
structure AppDoc where
  id : Nat
  student_id : String
  opening_id : String
  status : String
  mentor_id : Option String
  interview_datetime : Option Nat
  interview_location : Option String
  feedback : Option String
  certificate_url : Option String
  updated_at : Option Nat
deriving DecidableEq

/-- Modelled from the spec: `database.py` is not under `src/`; §6 of the
spec specifies its `insert(record) → generated identity` as storing the
record unchanged under a fresh identity.  `mkDoc` is the stored document
for a generated identity `nid`. -/
def mkDoc (nid : Nat) (a : ApplicationIn) : AppDoc :=
  { id := nid
    student_id := a.student_id
    opening_id := a.opening_id
    status := a.status
    mentor_id := a.mentor_id
    interview_datetime := a.interview_datetime
    interview_location := a.interview_location
    feedback := a.feedback
    certificate_url := a.certificate_url
    updated_at := none }

/-- An `HTTPException` as raised by the handlers in `main.py`. -/
structure HTTPError where
  status_code : Nat
  detail : String
deriving DecidableEq

/-- Python truthiness of an optional string: `None` and `""` are falsy. -/
def truthyOptStr : Option String → Bool
  | none => false
  | some s => !(s == "")

/-! ### Matcher: `GET /openings/recommendations` (`recommend_openings`) -/

/-- Per-opening score of `recommend_openings` (main.py lines 123–129):
the size of the intersection of the student's skill set with the
opening's required-skill set, plus 1 when `student.get("department")`
is truthy and equals the opening's department. -/
def matchScore (student : User) (o : Opening) : Nat :=
  let student_skills := student.skills.toFinset
  let req := o.skills_required.toFinset
  let overlap := (student_skills ∩ req).card
  overlap +
    (if truthyOptStr student.department && (student.department == o.department)
     then 1 else 0)

/-- The `scored` list built by `recommend_openings`: each opening of the
collection, in collection order, paired with its score. -/
def scoredList (student : User) (openings : List Opening) :
    List (Nat × Opening) :=
  openings.map (fun o => (matchScore student o, o))

/-- Stable insertion for descending order on the score component:
`x` goes in front of the first element whose score is `≤ x.1`, so an
element inserted later (i.e. earlier in the input) precedes the
equal-score elements already placed. -/
def insertScoredDesc (x : Nat × Opening) :
    List (Nat × Opening) → List (Nat × Opening)
  | [] => [x]
  | y :: ys => if y.1 ≤ x.1 then x :: y :: ys else y :: insertScoredDesc x ys

/-- `scored.sort(key=lambda x: x[0], reverse=True)`: Python's sort is
stable also under `reverse=True`, i.e. it orders by score descending and
keeps equal-score entries in input order; insertion from the right with
`insertScoredDesc` realises exactly that order. -/
def sortScoredDesc (l : List (Nat × Opening)) : List (Nat × Opening) :=
  l.foldr insertScoredDesc []

/-- `recommend_openings` (main.py lines 117–132), after the student
lookup: score every opening, sort descending by score (stable), return
the first `limit` entries, each opening paired with its `match_score`. -/
def recommend_openings (student : User) (openings : List Opening)
    (limit : Nat) : List (Nat × Opening) :=
  (sortScoredDesc (scoredList student openings)).take limit

/-! ### ObjectId parsing

`ObjectId(application_id)` in PyMongo accepts a 24-character
hexadecimal string (either case) and raises otherwise; the handlers
turn that exception into a 400 response.  The identity a string denotes
is its hexadecimal value. -/

/-- Whether a character is a hexadecimal digit (0-9, a-f, A-F). -/
def isHexChar (c : Char) : Bool :=
  (c.toNat ≥ 48 && c.toNat ≤ 57) || (c.toNat ≥ 97 && c.toNat ≤ 102) ||
  (c.toNat ≥ 65 && c.toNat ≤ 70)

/-- Value of a hexadecimal digit. -/
def hexVal (c : Char) : Nat :=
  if c.toNat ≥ 97 then c.toNat - 87
  else if c.toNat ≥ 65 then c.toNat - 55
  else c.toNat - 48

/-- `ObjectId(s)` for a string `s`: `some` of the identity it denotes
when `s` is a 24-character hexadecimal string, `none` (an exception in
the Python source) otherwise. -/
def parseObjectId (s : String) : Option Nat :=
  if s.data.length = 24 && s.data.all isHexChar then
    some (s.data.foldl (fun a c => 16 * a + hexVal c) 0)
  else none

/-! ### ApplicationLifecycle: `POST /applications` (`create_application`) -/

/-- The duplicate filter of `create_application` (main.py lines
139–141): a stored document with the same `student_id` and
`opening_id` as the request body. -/
def dupMatch (a : ApplicationIn) (d : AppDoc) : Bool :=
  d.student_id == a.student_id && d.opening_id == a.opening_id

/-- `create_application` (main.py lines 136–146): if a document for the
same `(student_id, opening_id)` pair exists, raise 400 "Application
already exists" and write nothing; otherwise insert the body as a new
document (via `create_document`, modelled from the spec's
`insert(record) → generated identity` — `database.py` is not under
`src/`) and return its generated identity `nid`. -/
def create_application (store : List AppDoc) (nid : Nat)
    (a : ApplicationIn) : Except HTTPError Nat × List AppDoc :=
  match store.find? (dupMatch a) with
  | some _ => (.error ⟨400, "Application already exists"⟩, store)
  | none => (.ok nid, store ++ [mkDoc nid a])

/-! ### ApplicationLifecycle: `PATCH /applications/{id}` (`update_application`) -/

/-- `ApplicationUpdate` request body of main.py lines 149–154: every
field optional, `status` an arbitrary string (no `Literal` constraint). -/
structure ApplicationUpdate where
  status : Option String
  mentor_id : Option String
  interview_datetime : Option Nat
  interview_location : Option String
  feedback : Option String
deriving DecidableEq

/-- The certificate link synthesized on a transition to "completed"
(main.py line 185): a pure function of the `application_id` path
parameter. -/
def certificate_link (application_id : String) : String :=
  "https://certs.example.com/" ++ application_id ++ ".pdf"

/-- The `$set` document of `update_application` applied to a stored
document: the non-`None` fields of the payload, plus `certificate_url`
when the payload's status is "completed", plus `updated_at := now`
(main.py lines 181–189). -/
def applyPatch (d : AppDoc) (p : ApplicationUpdate) (now : Nat)
    (application_id : String) : AppDoc :=
  { id := d.id
    student_id := d.student_id
    opening_id := d.opening_id
    status := match p.status with | some s => s | none => d.status
    mentor_id := match p.mentor_id with | some m => some m | none => d.mentor_id
    interview_datetime :=
      match p.interview_datetime with | some t => some t | none => d.interview_datetime
    interview_location :=
      match p.interview_location with | some l => some l | none => d.interview_location
    feedback := match p.feedback with | some f => some f | none => d.feedback
    certificate_url :=
      if p.status == some "completed" then some (certificate_link application_id)
      else d.certificate_url
    updated_at := some now }

/-- `update_one` on an `_id` filter: rewrite the first document whose
identity matches (MongoDB `_id` values are unique, so at most one
matches). -/
def updateFirst (store : List AppDoc) (oid : Nat) (f : AppDoc → AppDoc) :
    List AppDoc :=
  match store with
  | [] => []
  | d :: rest =>
    if d.id == oid then f d :: rest else d :: updateFirst rest oid f

/-- `update_application` (main.py lines 174–194): parse the path
parameter as an `ObjectId` (400 "Invalid application id" on failure),
apply the `$set` document via `update_one` (404 "Application not found"
when no document matches), then re-read and return the stored document
(a fresh read after write; the re-read cannot fail in this sequential
model, the 500 arm is the unreachable crash branch). -/
def update_application (store : List AppDoc) (now : Nat)
    (application_id : String) (payload : ApplicationUpdate) :
    Except HTTPError AppDoc × List AppDoc :=
  match parseObjectId application_id with
  | none => (.error ⟨400, "Invalid application id"⟩, store)
  | some oid =>
    match store.find? (fun d => d.id == oid) with
    | none => (.error ⟨404, "Application not found"⟩, store)
    | some _ =>
      let store2 := updateFirst store oid
        (fun d => applyPatch d payload now application_id)
      match store2.find? (fun d => d.id == oid) with
      | some d2 => (.ok d2, store2)
      | none => (.error ⟨500, "Internal Server Error"⟩, store2)

/-! ### ApplicationLifecycle: `GET /applications` (`list_applications`) -/

/-- `list_applications` (main.py lines 157–171): the filter dictionary
gains an equality constraint for each query parameter that is truthy
(so `None` and `""` both mean "no constraint"); `get_documents` is
modelled from the spec's `findMany(filter)` with equality-on-field
semantics (`database.py` is not under `src/`).  A `mentor_id`
constraint compares the stored optional field against `some` of the
supplied string, as MongoDB equality on a scalar does. -/
def list_applications (store : List AppDoc)
    (student_id opening_id mentor_id : Option String) : List AppDoc :=
  store.filter (fun d =>
    (if truthyOptStr student_id then d.student_id == student_id.getD "" else true) &&
    (if truthyOptStr opening_id then d.opening_id == opening_id.getD "" else true) &&
    (if truthyOptStr mentor_id then d.mentor_id == mentor_id else true))

/-! ### Lifecycle histories

A transition step is the data of one `update_application` call that
reaches the write: its payload, its `datetime.utcnow()` timestamp and
its `application_id` path string. -/

/-- One stored document evolving under a sequence of applied patches. -/
def runPatches (d : AppDoc)
    (steps : List (ApplicationUpdate × Nat × String)) : AppDoc :=
  steps.foldl (fun e st => applyPatch e st.1 st.2.1 st.2.2) d

/-- The statuses a document passes through under a sequence of applied
patches, starting from its current status. -/
def statusTrace (d : AppDoc) :
    List (ApplicationUpdate × Nat × String) → List String
  | [] => [d.status]
  | st :: rest => d.status :: statusTrace (applyPatch d st.1 st.2.1 st.2.2) rest

/-- The spec's department bonus, written from its words: "1 if
student.department is non-empty and equals o.department else 0". -/
def specDeptBonus (dept deptOpening : Option String) : Nat :=
  match dept with
  | none => 0
  | some d => if d ≠ "" ∧ deptOpening = some d then 1 else 0

/-- The spec's scoring function, written from its words:
`|student.skills ∩ o.skills_required| + department bonus`. -/
def specScore (student : User) (o : Opening) : Nat :=
  (student.skills.toFinset ∩ o.skills_required.toFinset).card +
    specDeptBonus student.department o.department

/-- The frame property of one applied `$set` document: the identity
and the reference fields never change, each payload field changes the
stored document exactly when it was assigned a value, `updated_at` is
always stamped to the call's time, and `certificate_url` is rewritten
(to the link derived from the path string) exactly when the patched
status is "completed". -/
def patchFrame (d : AppDoc) (p : ApplicationUpdate) (now : Nat)
    (aid : String) : Prop :=
  (applyPatch d p now aid).id = d.id ∧
  (applyPatch d p now aid).student_id = d.student_id ∧
  (applyPatch d p now aid).opening_id = d.opening_id ∧
  (p.status = none → (applyPatch d p now aid).status = d.status) ∧
  (∀ s, p.status = some s → (applyPatch d p now aid).status = s) ∧
  (p.mentor_id = none → (applyPatch d p now aid).mentor_id = d.mentor_id) ∧
  (∀ m, p.mentor_id = some m → (applyPatch d p now aid).mentor_id = some m) ∧
  (p.interview_datetime = none →
    (applyPatch d p now aid).interview_datetime = d.interview_datetime) ∧
  (∀ t, p.interview_datetime = some t →
    (applyPatch d p now aid).interview_datetime = some t) ∧
  (p.interview_location = none →
    (applyPatch d p now aid).interview_location = d.interview_location) ∧
  (∀ l, p.interview_location = some l →
    (applyPatch d p now aid).interview_location = some l) ∧
  (p.feedback = none → (applyPatch d p now aid).feedback = d.feedback) ∧
  (∀ f, p.feedback = some f → (applyPatch d p now aid).feedback = some f) ∧
  (applyPatch d p now aid).updated_at = some now ∧
  (p.status ≠ some "completed" →
    (applyPatch d p now aid).certificate_url = d.certificate_url) ∧
  (p.status = some "completed" →
    (applyPatch d p now aid).certificate_url = some (certificate_link aid))

/-! ### Concrete fixtures used by counterexamples and witnesses -/

/-- A stored application document with identity 0. -/
def witDoc : AppDoc :=
  ⟨0, "s1", "o1", "applied", none, none, none, none, none, none⟩

/-- A stored application document with identity 10. -/
def witDoc10 : AppDoc :=
  ⟨10, "s1", "o2", "approved", none, none, none, none, none, none⟩

/-- A patch whose status is outside the fixed allowed set. -/
def witPatchBogus : ApplicationUpdate :=
  ⟨some "totally_bogus_status", none, none, none, none⟩

/-- A patch transitioning to "completed". -/
def witPatchCompleted : ApplicationUpdate :=
  ⟨some "completed", none, none, none, none⟩

/-- A patch assigning only the feedback field. -/
def witPatchFeedback : ApplicationUpdate :=
  ⟨none, none, none, none, some "good work"⟩

/-- A well-formed identity string denoting `ObjectId` 0. -/
def aidZero : String := "000000000000000000000000"

/-- A well-formed identity string denoting `ObjectId` 10. -/
def aidTen : String := "00000000000000000000000a"

/-- An accepted `POST /applications` body that already carries a
certificate link while its status is "applied". -/
def cexBodyCert : ApplicationIn :=
  { student_id := "s1"
    opening_id := "o1"
    status := "applied"
    mentor_id := none
    interview_datetime := none
    interview_location := none
    feedback := none
    certificate_url := some "https://certs.example.com/manual.pdf" }

/-- An accepted `POST /applications` body whose status is "offered"
and whose mentor field is already assigned. -/
def cexBodyOffered : ApplicationIn :=
  { student_id := "s2"
    opening_id := "o2"
    status := "offered"
    mentor_id := some "m1"
    interview_datetime := none
    interview_location := none
    feedback := none
    certificate_url := none }

/-! ## Lemmas about the stable descending sort -/

lemma sortScoredDesc_cons (x : Nat × Opening) (xs : List (Nat × Opening)) :
    sortScoredDesc (x :: xs) = insertScoredDesc x (sortScoredDesc xs) := rfl

lemma length_insertScoredDesc (x : Nat × Opening) (l : List (Nat × Opening)) :
    (insertScoredDesc x l).length = l.length + 1 := by
  induction l with
  | nil => rfl
  | cons y ys ih =>
    simp only [insertScoredDesc]
    split
    · simp
    · simp [ih]

lemma length_sortScoredDesc (l : List (Nat × Opening)) :
    (sortScoredDesc l).length = l.length := by
  induction l with
  | nil => rfl
  | cons x xs ih =>
    rw [sortScoredDesc_cons, length_insertScoredDesc, ih, List.length_cons]

lemma mem_insertScoredDesc {z x : Nat × Opening} {l : List (Nat × Opening)} :
    z ∈ insertScoredDesc x l ↔ z = x ∨ z ∈ l := by
  induction l with
  | nil => simp [insertScoredDesc]
  | cons y ys ih =>
    simp only [insertScoredDesc]
    split
    · simp [List.mem_cons]
    · simp [List.mem_cons, ih]
      tauto

lemma mem_sortScoredDesc {z : Nat × Opening} {l : List (Nat × Opening)} :
    z ∈ sortScoredDesc l ↔ z ∈ l := by
  induction l with
  | nil => simp [sortScoredDesc]
  | cons x xs ih =>
    rw [sortScoredDesc_cons, mem_insertScoredDesc, ih, List.mem_cons]

lemma pairwise_insertScoredDesc {x : Nat × Opening} {l : List (Nat × Opening)}
    (h : l.Pairwise (fun a b => b.1 ≤ a.1)) :
    (insertScoredDesc x l).Pairwise (fun a b => b.1 ≤ a.1) := by
  induction l with
  | nil => simp [insertScoredDesc]
  | cons y ys ih =>
    rcases List.pairwise_cons.mp h with ⟨hy, hys⟩
    simp only [insertScoredDesc]
    split
    · rename_i hle
      refine List.pairwise_cons.mpr ⟨?_, h⟩
      intro z hz
      rcases List.mem_cons.mp hz with rfl | hz'
      · exact hle
      · exact le_trans (hy z hz') hle
    · rename_i hgt
      push_neg at hgt
      refine List.pairwise_cons.mpr ⟨?_, ih hys⟩
      intro z hz
      rcases mem_insertScoredDesc.mp hz with rfl | hz'
      · exact le_of_lt hgt
      · exact hy z hz'

lemma pairwise_sortScoredDesc (l : List (Nat × Opening)) :
    (sortScoredDesc l).Pairwise (fun a b => b.1 ≤ a.1) := by
  induction l with
  | nil => simp [sortScoredDesc]
  | cons x xs ih =>
    rw [sortScoredDesc_cons]
    exact pairwise_insertScoredDesc ih

lemma filter_insertScoredDesc (k : Nat) (x : Nat × Opening)
    (l : List (Nat × Opening)) :
    (insertScoredDesc x l).filter (fun z => z.1 == k)
      = if x.1 == k then x :: l.filter (fun z => z.1 == k)
        else l.filter (fun z => z.1 == k) := by
  induction l with
  | nil => simp [insertScoredDesc, List.filter_cons]
  | cons y ys ih =>
    simp only [insertScoredDesc]
    split
    · rename_i hle
      by_cases hx : (x.1 == k) = true
      · simp [List.filter_cons, hx]
      · simp [List.filter_cons, hx]
    · rename_i hgt
      push_neg at hgt
      by_cases hx : (x.1 == k) = true
      · have hxk : x.1 = k := beq_iff_eq.mp hx
        have hyk : (y.1 == k) = false := by
          apply beq_eq_false_iff_ne.mpr
          omega
        simp [List.filter_cons, hx, hyk, ih]
      · simp [List.filter_cons, hx, ih]

lemma filter_sortScoredDesc (k : Nat) (l : List (Nat × Opening)) :
    (sortScoredDesc l).filter (fun z => z.1 == k)
      = l.filter (fun z => z.1 == k) := by
  induction l with
  | nil => rfl
  | cons x xs ih =>
    rw [sortScoredDesc_cons, filter_insertScoredDesc, ih, List.filter_cons]

/-! ## Claims about the Matcher -/

lemma deptBonus_eq (D Do : Option String) :
    (if truthyOptStr D && (D == Do) then 1 else 0) = specDeptBonus D Do := by
  cases D with
  | none => simp [truthyOptStr, specDeptBonus]
  | some d =>
    cases Do with
    | none => simp [truthyOptStr, specDeptBonus]
    | some d2 =>
      by_cases hd : d = ""
      · subst hd
        simp [truthyOptStr, specDeptBonus]
      · by_cases h2 : d = d2
        · subst h2
          simp [truthyOptStr, specDeptBonus, hd]
        · simp [truthyOptStr, specDeptBonus, hd, h2, Ne.symm h2]

/-- Claim C1: the Matcher's score for an opening is exactly
`|student.skills ∩ o.skills_required|` plus 1 when the student's
department is non-empty and equal to the opening's department — an
integer with no normalization or weighting — and every entry of the
recommendation list carries exactly that score for its opening. -/
theorem recommend_score_matches_spec (student : User) (o : Opening)
    (openings : List Opening) (limit : Nat) :
    matchScore student o = specScore student o ∧
    ∀ p ∈ recommend_openings student openings limit,
      p.1 = specScore student p.2 := by
  have hscore : ∀ o' : Opening, matchScore student o' = specScore student o' := by
    intro o'
    unfold matchScore specScore
    rw [deptBonus_eq]
  refine ⟨hscore o, ?_⟩
  intro p hp
  have h1 : p ∈ sortScoredDesc (scoredList student openings) :=
    (List.take_sublist _ _).subset hp
  have h2 : p ∈ scoredList student openings := mem_sortScoredDesc.mp h1
  rcases List.mem_map.mp h2 with ⟨o', _, hpe⟩
  rw [← hpe]
  exact hscore o'

/-- Claim C2: the recommendation list is the `limit`-prefix of the
stable descending sort of the scored openings: it has exactly
`min limit n` entries, its scores are non-increasing, equal-score
entries keep their input order (the subsequence at each score value is
unchanged by the sort), an empty openings list gives an empty result,
`limit = 0` gives an empty result, and score-0 entries are not
filtered out (the length count includes them). -/
theorem recommend_length_sorted_stable (student : User)
    (openings : List Opening) (limit : Nat) :
    recommend_openings student openings limit
        = (sortScoredDesc (scoredList student openings)).take limit ∧
    (recommend_openings student openings limit).length
        = min limit openings.length ∧
    (recommend_openings student openings limit).Pairwise
        (fun a b => b.1 ≤ a.1) ∧
    (∀ k : Nat,
      (sortScoredDesc (scoredList student openings)).filter (fun z => z.1 == k)
        = (scoredList student openings).filter (fun z => z.1 == k)) ∧
    recommend_openings student [] limit = [] ∧
    recommend_openings student openings 0 = [] := by
  refine ⟨rfl, ?_, ?_, fun k => filter_sortScoredDesc k _, ?_, rfl⟩
  · rw [recommend_openings, List.length_take, length_sortScoredDesc]
    simp [scoredList]
  · exact (pairwise_sortScoredDesc _).sublist (List.take_sublist _ _)
  · simp [recommend_openings, scoredList, sortScoredDesc]

/-! ## Lemmas about the applications store -/

lemma find?_append_none {p : AppDoc → Bool} {l₁ : List AppDoc}
    (l₂ : List AppDoc) (h : l₁.find? p = none) :
    (l₁ ++ l₂).find? p = l₂.find? p := by
  induction l₁ with
  | nil => rfl
  | cons d rest ih =>
    cases hpd : p d with
    | true =>
      rw [List.find?_cons_of_pos _ hpd] at h
      exact absurd h (by simp)
    | false =>
      rw [List.find?_cons_of_neg _ (by simp [hpd])] at h
      rw [List.cons_append, List.find?_cons_of_neg _ (by simp [hpd])]
      exact ih h

/-! ## Claims about application creation -/

/-- Claim C3: when no application for the `(student_id, opening_id)`
pair is stored, create inserts exactly one matching document, and an
immediate second create with the identical body fails with the
Conflict error ("Application already exists", status 400) and leaves
the store unchanged — no implicit update, no upsert. -/
theorem create_twice_conflict (store : List AppDoc) (nid nid2 : Nat)
    (a : ApplicationIn) (h : store.find? (dupMatch a) = none) :
    create_application store nid a = (.ok nid, store ++ [mkDoc nid a]) ∧
    ((store ++ [mkDoc nid a]).filter (dupMatch a)).length = 1 ∧
    create_application (store ++ [mkDoc nid a]) nid2 a
      = (.error ⟨400, "Application already exists"⟩, store ++ [mkDoc nid a]) := by
  have hdup : dupMatch a (mkDoc nid a) = true := by simp [dupMatch, mkDoc]
  have hfilter : store.filter (dupMatch a) = [] :=
    List.filter_eq_nil_iff.mpr (List.find?_eq_none.mp h)
  refine ⟨by simp [create_application, h], ?_, ?_⟩
  · rw [List.filter_append, hfilter, List.nil_append, List.filter_cons]
    simp [hdup]
  · have hfind : (store ++ [mkDoc nid a]).find? (dupMatch a)
        = some (mkDoc nid a) := by
      rw [find?_append_none _ h]
      exact List.find?_cons_of_pos _ hdup
    simp [create_application, hfind]

theorem create_twice_conflict_witness :
    ([] : List AppDoc).find? (dupMatch (defaultApplication "s1" "o1")) = none ∧
    (create_application [] 0 (defaultApplication "s1" "o1")
        = (.ok 0, [] ++ [mkDoc 0 (defaultApplication "s1" "o1")]) ∧
     (([] ++ [mkDoc 0 (defaultApplication "s1" "o1")]).filter
        (dupMatch (defaultApplication "s1" "o1"))).length = 1 ∧
     create_application ([] ++ [mkDoc 0 (defaultApplication "s1" "o1")]) 1
        (defaultApplication "s1" "o1")
        = (.error ⟨400, "Application already exists"⟩,
           [] ++ [mkDoc 0 (defaultApplication "s1" "o1")])) :=
  ⟨rfl, create_twice_conflict [] 0 1 (defaultApplication "s1" "o1") rfl⟩

/-- Claim C7 is refuted as stated: `POST /applications` accepts the
full `Application` model, so an accepted body may carry a status other
than "applied" and non-empty optional fields, which create stores
verbatim.  Witnessed by the accepted body `cexBodyOffered`. -/
theorem create_nondefault_body_cex :
    validApplicationIn cexBodyOffered = true ∧
    create_application [] 3 cexBodyOffered = (.ok 3, [mkDoc 3 cexBodyOffered]) ∧
    (mkDoc 3 cexBodyOffered).status = "offered" ∧
    (mkDoc 3 cexBodyOffered).status ≠ "applied" ∧
    (mkDoc 3 cexBodyOffered).mentor_id = some "m1" :=
  ⟨by decide, rfl, rfl, by decide, rfl⟩

/-- Claim C7 (amended): create stores the accepted request body
verbatim under a fresh identity; in particular, when the body leaves
`status` and every optional field to the schema defaults, the stored
Application has status "applied" and all optional fields empty. -/
theorem create_default_body_applied (store : List AppDoc) (nid : Nat)
    (sid oid : String)
    (h : store.find? (dupMatch (defaultApplication sid oid)) = none) :
    create_application store nid (defaultApplication sid oid)
      = (.ok nid, store ++ [mkDoc nid (defaultApplication sid oid)]) ∧
    (mkDoc nid (defaultApplication sid oid)).status = "applied" ∧
    (mkDoc nid (defaultApplication sid oid)).mentor_id = none ∧
    (mkDoc nid (defaultApplication sid oid)).interview_datetime = none ∧
    (mkDoc nid (defaultApplication sid oid)).interview_location = none ∧
    (mkDoc nid (defaultApplication sid oid)).feedback = none ∧
    (mkDoc nid (defaultApplication sid oid)).certificate_url = none :=
  ⟨by simp [create_application, h], rfl, rfl, rfl, rfl, rfl, rfl⟩

theorem create_default_body_applied_witness :
    ([] : List AppDoc).find? (dupMatch (defaultApplication "s3" "o3")) = none ∧
    (create_application [] 7 (defaultApplication "s3" "o3")
        = (.ok 7, [] ++ [mkDoc 7 (defaultApplication "s3" "o3")]) ∧
     (mkDoc 7 (defaultApplication "s3" "o3")).status = "applied" ∧
     (mkDoc 7 (defaultApplication "s3" "o3")).mentor_id = none ∧
     (mkDoc 7 (defaultApplication "s3" "o3")).interview_datetime = none ∧
     (mkDoc 7 (defaultApplication "s3" "o3")).interview_location = none ∧
     (mkDoc 7 (defaultApplication "s3" "o3")).feedback = none ∧
     (mkDoc 7 (defaultApplication "s3" "o3")).certificate_url = none) :=
  ⟨rfl, create_default_body_applied [] 7 "s3" "o3" rfl⟩

/-! ## Lemmas about `update_application` -/

lemma updateFirst_cons (e : AppDoc) (rest : List AppDoc) (oid : Nat)
    (f : AppDoc → AppDoc) :
    updateFirst (e :: rest) oid f
      = if e.id == oid then f e :: rest else e :: updateFirst rest oid f := rfl

lemma applyPatch_id (d : AppDoc) (p : ApplicationUpdate) (now : Nat)
    (aid : String) : (applyPatch d p now aid).id = d.id := rfl

lemma find?_updateFirst (store : List AppDoc) (oid : Nat)
    (p : ApplicationUpdate) (now : Nat) (aid : String) (d : AppDoc)
    (h : store.find? (fun e => e.id == oid) = some d) :
    (updateFirst store oid (fun e => applyPatch e p now aid)).find?
        (fun e => e.id == oid) = some (applyPatch d p now aid) := by
  induction store with
  | nil => simp [List.find?] at h
  | cons e rest ih =>
    by_cases he : ((fun x : AppDoc => x.id == oid) e = true)
    · rw [List.find?_cons_of_pos rest he] at h
      injection h with h
      subst h
      rw [updateFirst_cons, if_pos he]
      have he2 : (fun x : AppDoc => x.id == oid) (applyPatch e p now aid)
          = true := he
      exact List.find?_cons_of_pos rest he2
    · rw [List.find?_cons_of_neg rest he] at h
      rw [updateFirst_cons, if_neg he]
      rw [List.find?_cons_of_neg
        (updateFirst rest oid (fun x => applyPatch x p now aid)) he]
      exact ih h

lemma update_application_found (store : List AppDoc) (now : Nat)
    (aid : String) (p : ApplicationUpdate) (oid : Nat) (d : AppDoc)
    (hp : parseObjectId aid = some oid)
    (hd : store.find? (fun e => e.id == oid) = some d) :
    update_application store now aid p
      = (.ok (applyPatch d p now aid),
         updateFirst store oid (fun e => applyPatch e p now aid)) := by
  have hfind := find?_updateFirst store oid p now aid d hd
  simp [update_application, hp, hd, hfind]

lemma mem_updateFirst_of_ne {store : List AppDoc} {oid : Nat}
    (f : AppDoc → AppDoc) {e : AppDoc} (he : e ∈ store) (hne : e.id ≠ oid) :
    e ∈ updateFirst store oid f := by
  induction store with
  | nil => simp at he
  | cons d rest ih =>
    rcases List.mem_cons.mp he with rfl | h'
    · have hfalse : (e.id == oid) = false := beq_eq_false_iff_ne.mpr hne
      simp [updateFirst, hfalse]
    · by_cases hd : (d.id == oid) = true
      · simp only [updateFirst, hd, if_true]
        exact List.mem_cons_of_mem _ h'
      · have hd' : (d.id == oid) = false := by simpa using hd
        simp only [updateFirst, hd', Bool.false_eq_true, if_false]
        exact List.mem_cons_of_mem _ (ih h')

lemma patchFrame_holds (d : AppDoc) (p : ApplicationUpdate) (now : Nat)
    (aid : String) : patchFrame d p now aid := by
  refine ⟨rfl, rfl, rfl, ?_, ?_, ?_, ?_, ?_, ?_, ?_, ?_, ?_, ?_, rfl, ?_, ?_⟩
  · intro h; simp [applyPatch, h]
  · intro s h; simp [applyPatch, h]
  · intro h; simp [applyPatch, h]
  · intro m h; simp [applyPatch, h]
  · intro h; simp [applyPatch, h]
  · intro t h; simp [applyPatch, h]
  · intro h; simp [applyPatch, h]
  · intro l h; simp [applyPatch, h]
  · intro h; simp [applyPatch, h]
  · intro f h; simp [applyPatch, h]
  · intro h
    have : (p.status == some "completed") = false := beq_eq_false_iff_ne.mpr h
    simp [applyPatch, this]
  · intro h; simp [applyPatch, h]

/-! ## Claims about application transitions -/

/-- Claim C4: the two failure modes of the transition operation are
distinguished for every input — the 400 "Invalid application id"
response happens exactly when the path string is not a well-formed
`ObjectId`, the 404 "Application not found" response happens exactly
when the identity parses but no stored document carries it, and in
either failure case the store is unchanged (no write occurs). -/
theorem update_error_discrimination (store : List AppDoc) (now : Nat)
    (aid : String) (p : ApplicationUpdate) :
    ((update_application store now aid p).1
        = .error ⟨400, "Invalid application id"⟩ ↔ parseObjectId aid = none) ∧
    ((update_application store now aid p).1
        = .error ⟨404, "Application not found"⟩ ↔
      (∃ oid, parseObjectId aid = some oid ∧
        store.find? (fun d => d.id == oid) = none)) ∧
    (parseObjectId aid = none → (update_application store now aid p).2 = store) ∧
    (∀ oid, parseObjectId aid = some oid →
      store.find? (fun d => d.id == oid) = none →
      (update_application store now aid p).2 = store) := by
  cases hp : parseObjectId aid with
  | none =>
    have hres : update_application store now aid p
        = (.error ⟨400, "Invalid application id"⟩, store) := by
      simp [update_application, hp]
    rw [hres]
    refine ⟨by simp, by simp, fun _ => rfl, ?_⟩
    intro oid h _
    exact absurd h (by simp)
  | some oid =>
    cases hf : store.find? (fun d => d.id == oid) with
    | none =>
      have hres : update_application store now aid p
          = (.error ⟨404, "Application not found"⟩, store) := by
        simp [update_application, hp, hf]
      rw [hres]
      refine ⟨by simp, ?_, ?_, fun _ _ _ => rfl⟩
      · constructor
        · intro _
          exact ⟨oid, rfl, hf⟩
        · intro _
          rfl
      · intro h
        exact absurd h (by simp)
    | some d =>
      rw [update_application_found store now aid p oid d hp hf]
      refine ⟨?_, ?_, ?_, ?_⟩
      · constructor
        · intro h
          exact Except.noConfusion h
        · intro h
          exact absurd h (by simp)
      · constructor
        · intro h
          exact Except.noConfusion h
        · rintro ⟨oid', h, hfind⟩
          injection h with h
          subst h
          rw [hf] at hfind
          exact Option.noConfusion hfind
      · intro h
        exact absurd h (by simp)
      · intro oid' h hfind
        injection h with h
        subst h
        rw [hf] at hfind
        exact Option.noConfusion hfind

/-- Claim C8: the transition operation never validates the status
value — for every string supplied as the patch's status, a transition
on a resolvable identity succeeds and stores that string verbatim. -/
theorem update_status_unvalidated (store : List AppDoc) (now : Nat)
    (aid : String) (p : ApplicationUpdate) (oid : Nat) (d : AppDoc)
    (s : String) (hp : parseObjectId aid = some oid)
    (hd : store.find? (fun e => e.id == oid) = some d)
    (hs : p.status = some s) :
    ∃ d', (update_application store now aid p).1 = .ok d' ∧ d'.status = s := by
  refine ⟨applyPatch d p now aid, ?_, ?_⟩
  · rw [update_application_found store now aid p oid d hp hd]
  · simp [applyPatch, hs]

theorem update_status_unvalidated_witness :
    parseObjectId aidZero = some 0 ∧
    [witDoc].find? (fun e => e.id == 0) = some witDoc ∧
    witPatchBogus.status = some "totally_bogus_status" ∧
    (∃ d', (update_application [witDoc] 5 aidZero witPatchBogus).1 = .ok d' ∧
      d'.status = "totally_bogus_status") :=
  ⟨rfl, rfl, rfl,
    update_status_unvalidated [witDoc] 5 aidZero witPatchBogus 0 witDoc
      "totally_bogus_status" rfl rfl rfl⟩

/-- Claim C9: a successful transition rewrites the matched document to
exactly `applyPatch` of it — only the payload fields that were
assigned a value change, `updated_at` is stamped, `certificate_url` is
rewritten only when the patched status is "completed"
(`patchFrame`) — and every other stored document is untouched. -/
theorem update_frame (store : List AppDoc) (now : Nat) (aid : String)
    (p : ApplicationUpdate) (oid : Nat) (d : AppDoc)
    (hp : parseObjectId aid = some oid)
    (hd : store.find? (fun e => e.id == oid) = some d) :
    update_application store now aid p
      = (.ok (applyPatch d p now aid),
         updateFirst store oid (fun e => applyPatch e p now aid)) ∧
    patchFrame d p now aid ∧
    (∀ e ∈ store, e.id ≠ oid → e ∈ (update_application store now aid p).2) := by
  have hfound := update_application_found store now aid p oid d hp hd
  refine ⟨hfound, patchFrame_holds d p now aid, ?_⟩
  intro e he hne
  rw [hfound]
  exact mem_updateFirst_of_ne _ he hne

theorem update_frame_witness :
    parseObjectId aidZero = some 0 ∧
    [witDoc].find? (fun e => e.id == 0) = some witDoc ∧
    (update_application [witDoc] 5 aidZero witPatchFeedback
        = (.ok (applyPatch witDoc witPatchFeedback 5 aidZero),
           updateFirst [witDoc] 0
             (fun e => applyPatch e witPatchFeedback 5 aidZero)) ∧
     patchFrame witDoc witPatchFeedback 5 aidZero ∧
     (∀ e ∈ [witDoc], e.id ≠ 0 →
        e ∈ (update_application [witDoc] 5 aidZero witPatchFeedback).2)) :=
  ⟨rfl, rfl, update_frame [witDoc] 5 aidZero witPatchFeedback 0 witDoc rfl rfl⟩

/-- Claim C5: on a transition whose patched status is "completed", the
written certificate reference is `certificate_link` of the identity
string — a pure function of the application identity — so running the
same completed-status transition twice against the same application
yields the same certificate reference both times. -/
theorem completed_certificate_idempotent (store : List AppDoc)
    (now now2 : Nat) (aid : String) (p : ApplicationUpdate) (oid : Nat)
    (d : AppDoc) (hp : parseObjectId aid = some oid)
    (hd : store.find? (fun e => e.id == oid) = some d)
    (hs : p.status = some "completed") :
    ∃ d1 store1 d2 store2,
      update_application store now aid p = (.ok d1, store1) ∧
      update_application store1 now2 aid p = (.ok d2, store2) ∧
      d1.certificate_url = some (certificate_link aid) ∧
      d2.certificate_url = some (certificate_link aid) ∧
      d1.certificate_url = d2.certificate_url := by
  have h1 := update_application_found store now aid p oid d hp hd
  have hd1 := find?_updateFirst store oid p now aid d hd
  have h2 := update_application_found
    (updateFirst store oid (fun e => applyPatch e p now aid)) now2 aid p oid
    (applyPatch d p now aid) hp hd1
  refine ⟨applyPatch d p now aid, _, applyPatch (applyPatch d p now aid) p now2 aid,
    _, h1, h2, ?_, ?_, ?_⟩
  · simp [applyPatch, hs]
  · simp [applyPatch, hs]
  · simp [applyPatch, hs]

theorem completed_certificate_idempotent_witness :
    parseObjectId aidTen = some 10 ∧
    [witDoc10].find? (fun e => e.id == 10) = some witDoc10 ∧
    witPatchCompleted.status = some "completed" ∧
    (∃ d1 store1 d2 store2,
      update_application [witDoc10] 4 aidTen witPatchCompleted = (.ok d1, store1) ∧
      update_application store1 6 aidTen witPatchCompleted = (.ok d2, store2) ∧
      d1.certificate_url = some (certificate_link aidTen) ∧
      d2.certificate_url = some (certificate_link aidTen) ∧
      d1.certificate_url = d2.certificate_url) :=
  ⟨rfl, rfl, rfl,
    completed_certificate_idempotent [witDoc10] 4 6 aidTen witPatchCompleted 10
      witDoc10 rfl rfl rfl⟩

/-! ## The certificate invariant along lifecycle histories -/

lemma runPatches_nil (d : AppDoc) : runPatches d [] = d := rfl

lemma runPatches_cons (d : AppDoc) (st : ApplicationUpdate × Nat × String)
    (rest : List (ApplicationUpdate × Nat × String)) :
    runPatches d (st :: rest)
      = runPatches (applyPatch d st.1 st.2.1 st.2.2) rest := rfl

lemma status_mem_statusTrace (d : AppDoc)
    (steps : List (ApplicationUpdate × Nat × String)) :
    d.status ∈ statusTrace d steps := by
  cases steps with
  | nil => simp [statusTrace]
  | cons st rest => simp [statusTrace]

lemma cert_some_persists (steps : List (ApplicationUpdate × Nat × String))
    (d : AppDoc) (h : d.certificate_url.isSome = true) :
    (runPatches d steps).certificate_url.isSome = true := by
  induction steps generalizing d with
  | nil => exact h
  | cons st rest ih =>
    rw [runPatches_cons]
    apply ih
    by_cases hc : (st.1.status == some "completed") = true
    · simp [applyPatch, hc]
    · have hc' : (st.1.status == some "completed") = false := by simpa using hc
      simpa [applyPatch, hc'] using h

lemma cert_iff_trace (steps : List (ApplicationUpdate × Nat × String))
    (d : AppDoc) (hst : d.status ≠ "completed")
    (hc : d.certificate_url = none) :
    (runPatches d steps).certificate_url.isSome = true
      ↔ "completed" ∈ statusTrace d steps := by
  induction steps generalizing d with
  | nil =>
    rw [runPatches_nil]
    simp [statusTrace, hc, Ne.symm hst]
  | cons st rest ih =>
    rw [runPatches_cons]
    by_cases hcomp : st.1.status = some "completed"
    · have hcert : (applyPatch d st.1 st.2.1 st.2.2).certificate_url.isSome
          = true := by simp [applyPatch, hcomp]
      have hstat : (applyPatch d st.1 st.2.1 st.2.2).status = "completed" := by
        simp [applyPatch, hcomp]
      constructor
      · intro _
        show "completed" ∈ d.status :: statusTrace (applyPatch d st.1 st.2.1 st.2.2) rest
        apply List.mem_cons_of_mem
        rw [← hstat]
        exact status_mem_statusTrace _ rest
      · intro _
        exact cert_some_persists rest _ hcert
    · have hcert : (applyPatch d st.1 st.2.1 st.2.2).certificate_url = none := by
        have hbe : (st.1.status == some "completed") = false :=
          beq_eq_false_iff_ne.mpr hcomp
        simp [applyPatch, hbe, hc]
      have hstat : (applyPatch d st.1 st.2.1 st.2.2).status ≠ "completed" := by
        cases hs : st.1.status with
        | none => simpa [applyPatch, hs] using hst
        | some s =>
          have hne : s ≠ "completed" := by
            intro hcontra
            exact hcomp (by rw [hs, hcontra])
          simpa [applyPatch, hs] using hne
      rw [ih _ hstat hcert]
      show _ ↔ "completed" ∈ d.status :: statusTrace (applyPatch d st.1 st.2.1 st.2.2) rest
      simp [List.mem_cons, Ne.symm hst]

/-- Claim C6 is refuted as stated: an Application is reachable through
a single create call whose accepted body already carries a
certificate_url while its status never reaches "completed"
(`cexBodyCert`). -/
theorem certificate_without_completion_cex :
    validApplicationIn cexBodyCert = true ∧
    create_application [] 0 cexBodyCert = (.ok 0, [mkDoc 0 cexBodyCert]) ∧
    (mkDoc 0 cexBodyCert).certificate_url.isSome = true ∧
    statusTrace (mkDoc 0 cexBodyCert) [] = ["applied"] ∧
    "completed" ∉ statusTrace (mkDoc 0 cexBodyCert) [] :=
  ⟨by decide, rfl, rfl, rfl, by decide⟩

/-- Claim C6 (amended): for every Application created with the
schema-default body (status "applied", optional fields empty) and then
mutated by any sequence of applied transition patches, certificate_url
is present exactly when the status has ever been "completed". -/
theorem certificate_iff_ever_completed (sid oid : String) (nid : Nat)
    (steps : List (ApplicationUpdate × Nat × String)) :
    (runPatches (mkDoc nid (defaultApplication sid oid)) steps).certificate_url.isSome
        = true
      ↔ "completed" ∈ statusTrace (mkDoc nid (defaultApplication sid oid)) steps := by
  apply cert_iff_trace
  · show "applied" ≠ "completed"
    decide
  · rfl

/-! ## Claim about application listing -/

/-- Claim C10: in the list operation, a filter supplied as the empty
string is treated exactly like an absent filter — no constraint is put
on that field and all stored Applications are returned. -/
theorem list_empty_string_filter_ignored (store : List AppDoc) :
    list_applications store (some "") none none = store ∧
    list_applications store none (some "") none = store ∧
    list_applications store none none (some "") = store ∧
    list_applications store none none none = store := by
  refine ⟨?_, ?_, ?_, ?_⟩ <;>
    simp [list_applications, truthyOptStr]

end Portal
